import Mathlib

/-!
Shallow embedding of the ReplDB client (the `ReplitDatabase` class built on
axios) and proofs about its key-value primitives and patch engine.

JavaScript runtime values are modelled by the inductive type `JSValue`.
Numbers are modelled by `Int` plus an explicit `nan` constructor; non-integer
floating-point values are outside the model (every number appearing in the
claims is an integer).  Objects are association lists in insertion order,
which is how `Object.entries` iterates them.  Object aliasing (two fields
holding the same mutable reference) is outside the model: values are trees,
matching what JSON round-trips through the store.
-/

namespace ReplDB

/-- A JavaScript value as it appears in this client (JSON-decodable shapes
plus `undefined` and `NaN`). -/
inductive JSValue where
  | undefined : JSValue
  | null : JSValue
  | bool (b : Bool) : JSValue
  | num (n : Int) : JSValue
  | nan : JSValue
  | str (s : String) : JSValue
  | arr (xs : List JSValue) : JSValue
  | obj (fs : List (String × JSValue)) : JSValue
deriving Repr, Inhabited

/-- The JavaScript `typeof` operator on a `JSValue` (note `typeof null` and
`typeof` of an array are both the string `object`). -/
def typeofJS : JSValue → String
  | .undefined => "undefined"
  | .null => "object"
  | .bool _ => "boolean"
  | .num _ => "number"
  | .nan => "number"
  | .str _ => "string"
  | .arr _ => "object"
  | .obj _ => "object"

/-- JavaScript falsiness (`!v` is `true`): `undefined`, `null`, `false`,
`0`, `NaN` and the empty string are falsy; every object is truthy. -/
def jsFalsy : JSValue → Bool
  | .undefined => true
  | .null => true
  | .bool b => !b
  | .num n => n == 0
  | .nan => true
  | .str s => s == ""
  | .arr _ => false
  | .obj _ => false

mutual

/-- JavaScript `ToString` coercion restricted to the modelled values:
arrays join their elements with commas (with `null`/`undefined` elements
printed as the empty string) and plain objects print as
`[object Object]`. -/
def jsToString : JSValue → String
  | .undefined => "undefined"
  | .null => "null"
  | .bool b => if b then "true" else "false"
  | .num n => toString n
  | .nan => "NaN"
  | .str s => s
  | .arr xs => String.intercalate "," (jsToStringElems xs)
  | .obj _ => "[object Object]"

/-- Element-wise `ToString` used by `Array.prototype.toString`: `null` and
`undefined` elements become the empty string. -/
def jsToStringElems : List JSValue → List String
  | [] => []
  | .undefined :: rest => "" :: jsToStringElems rest
  | .null :: rest => "" :: jsToStringElems rest
  | v :: rest => jsToString v :: jsToStringElems rest

end

/-- `Number(s)` for a string: an all-whitespace string is `0`, an integer
literal parses, anything else is `NaN` (non-integer literals are outside
the `Int` model). -/
def strToNum (s : String) : JSValue :=
  let t := s.trim
  if t = "" then .num 0
  else match t.toInt? with
    | some n => .num n
    | none => .nan

/-- JavaScript `ToNumber` coercion on the modelled values.  An array
coerces through its `ToString` form (so `[5]` is `5` and `[1,2]` is `NaN`);
a plain object gives `NaN`. -/
def jsToNum : JSValue → JSValue
  | .num n => .num n
  | .nan => .nan
  | .null => .num 0
  | .undefined => .nan
  | .bool b => .num (if b then 1 else 0)
  | .str s => strToNum s
  | .arr xs => strToNum (jsToString (.arr xs))
  | .obj _ => .nan

/-- Read a field from an association-list object: first match wins,
missing fields read as `undefined`. -/
def objGet (fs : List (String × JSValue)) (x : String) : JSValue :=
  match fs with
  | [] => .undefined
  | (k, v) :: rest => if k = x then v else objGet rest x

/-- JavaScript assignment `o[x] = y` on an object: an existing field keeps
its position, a new field is appended (insertion order). -/
def objInsert (fs : List (String × JSValue)) (x : String) (y : JSValue) :
    List (String × JSValue) :=
  match fs with
  | [] => [(x, y)]
  | (k, v) :: rest =>
      if k = x then (k, y) :: rest else (k, v) :: objInsert rest x y

/-- JavaScript assignment `a[i] = y` on an array: in-bounds indices are
overwritten, out-of-bounds indices extend the array with `undefined`
holes. -/
def arrSet (xs : List JSValue) (i : Nat) (y : JSValue) : List JSValue :=
  if i < xs.length then xs.set i y
  else xs ++ List.replicate (i - xs.length) .undefined ++ [y]

/-- Errors surfaced to the caller: argument-validation errors, runtime
`TypeError`s thrown while applying a patch, HTTP failures carrying a
status (axios rejects any non-2xx response with `err.response.status`
set), and network errors with no response. -/
inductive JSError where
  | invalidArg (msg : String) : JSError
  | typeError (msg : String) : JSError
  | http (status : Nat) : JSError
  | netErr : JSError
deriving Repr, DecidableEq

/-- True exactly on the argument-validation errors. -/
def JSError.isInvalidArg : JSError → Bool
  | .invalidArg _ => true
  | _ => false

/-- Property read `v[x]` on an arbitrary value: objects look up the field,
arrays and strings answer numeric indices and `length`, number/boolean
reads give `undefined`, and a read on a `null` or `undefined` base throws
a `TypeError` (`null[x]` is an error in JavaScript). -/
def propGet (v : JSValue) (x : String) : Except JSError JSValue :=
  match v with
  | .null => .error (.typeError "Cannot read properties of null")
  | .undefined => .error (.typeError "Cannot read properties of undefined")
  | .obj fs => .ok (objGet fs x)
  | .arr xs =>
      .ok (match x.toNat? with
           | some i => xs.getD i .undefined
           | none => if x = "length" then .num xs.length else .undefined)
  | .str s =>
      .ok (match x.toNat? with
           | some i =>
               (match s.toList.get? i with
                | some c => .str (String.singleton c)
                | none => .undefined)
           | none => if x = "length" then .num s.length else .undefined)
  | _ => .ok .undefined

/-- Property write `v[x] = y` on an arbitrary value: objects insert,
arrays accept numeric indices (a non-index property on an array is
invisible to the JSON codec and is dropped by the model).  Class bodies
are strict-mode code, so a write on a number, string, boolean or `NaN`
base throws a `TypeError`, as do writes on `null` and `undefined`. -/
def propSet (v : JSValue) (x : String) (y : JSValue) : Except JSError JSValue :=
  match v with
  | .obj fs => .ok (.obj (objInsert fs x y))
  | .arr xs =>
      .ok (match x.toNat? with
           | some i => .arr (arrSet xs i y)
           | none => .arr xs)
  | .null => .error (.typeError "Cannot set properties of null")
  | .undefined => .error (.typeError "Cannot set properties of undefined")
  | _ => .error (.typeError "Cannot create property on a primitive value")

/-- `Object.entries(v)`: fields of an object in insertion order, indexed
elements of an array or string, the empty list for the other primitives,
and a `TypeError` for `null` or `undefined`. -/
def jsEntries : JSValue → Except JSError (List (String × JSValue))
  | .obj fs => .ok fs
  | .arr xs => .ok ((List.range xs.length).zip xs |>.map fun p => (toString p.1, p.2))
  | .str s =>
      .ok ((List.range s.toList.length).zip s.toList
            |>.map fun p => (toString p.1, .str (String.singleton p.2)))
  | .null => .error (.typeError "Cannot convert null to object")
  | .undefined => .error (.typeError "Cannot convert undefined to object")
  | _ => .ok []

/-- One transport request issued by the client: `GET baseURL/key`,
`POST baseURL` with a `key=value` body, `DELETE baseURL/key`, or
`GET baseURL?prefix=...`.  URL/JSON encoding of the payload is the
transport/codec collaborators' concern and is kept abstract. -/
inductive Request where
  | reqGet (key : String) : Request
  | reqSet (key : String) (value : JSValue) : Request
  | reqDelete (key : String) : Request
  | reqList (pre : String) : Request
deriving Repr

/-- The remote store together with the transport and value codec, the
external collaborators: each request either succeeds (for a read, with the
decoded value) or fails with an HTTP-status or network error. -/
structure Backend where
  getR : String → Except JSError JSValue
  setR : String → JSValue → Except JSError Unit
  delR : String → Except JSError Unit
  listR : String → Except JSError String

/-- How a returned promise ends: settled with a resolution or rejection,
or forever pending (its executor returned without ever calling `resolve`
or `reject`). -/
inductive Outcome (α : Type) where
  | settled (r : Except JSError α) : Outcome α
  | pending : Outcome α
deriving Repr

/-- The key validation shared by every primitive:
`if(!key) reject(...)` then `if(typeof key !== "string") reject(...)`.
An empty string is falsy, so it fails the first check. -/
def keyCheck (key : JSValue) : Except JSError String :=
  if jsFalsy key then .error (.invalidArg "You must set a key name.")
  else match key with
    | .str s => .ok s
    | k => .error (.invalidArg ("Key name must be a String, nor " ++ typeofJS k))

/-- `get(key)`: validate the key, then `axios.get(baseURL/key)`; the
response body is decoded by the codec (`JSON.parse` with a fall-back to
the raw string, folded into `Backend.getR`).  A non-2xx response makes
axios reject, and the rejection is passed through unchanged. -/
def get (b : Backend) (key : JSValue) : Except JSError JSValue × List Request :=
  match keyCheck key with
  | .error e => (.error e, [])
  | .ok k => (b.getR k, [.reqGet k])

/-- `has(key)`: call `get`; a resolved `undefined` or a rejection whose
response status is 404 give `false`, any other resolution gives `true`,
any other rejection propagates (as the bare error when there is no
response). -/
def has (b : Backend) (key : JSValue) : Except JSError Bool × List Request :=
  match get b key with
  | (.ok v, tr) => (.ok (match v with | .undefined => false | _ => true), tr)
  | (.error (.http 404), tr) => (.ok false, tr)
  | (.error e, tr) => (.error e, tr)

/-- `set(key, value)`: validate the key, then
`axios.post(baseURL, key=JSON.stringify(value))` and resolve with the key. -/
def set (b : Backend) (key : JSValue) (value : JSValue) :
    Except JSError JSValue × List Request :=
  match keyCheck key with
  | .error e => (.error e, [])
  | .ok k =>
      (match b.setR k value with
       | .error e => (.error e, [.reqSet k value])
       | .ok _ => (.ok (.str k), [.reqSet k value]))

/-- `delete(key)`: validate the key, then `axios.delete(baseURL/key)` and
resolve with the key. -/
def delete (b : Backend) (key : JSValue) : Except JSError JSValue × List Request :=
  match keyCheck key with
  | .error e => (.error e, [])
  | .ok k =>
      (match b.delR k with
       | .error e => (.error e, [.reqDelete k])
       | .ok _ => (.ok (.str k), [.reqDelete k]))

/-- Auxiliary for `splitNl`: `acc` is the chunk read so far. -/
def splitNlAux : List Char → String → List String
  | [], acc => [acc]
  | c :: rest, acc =>
      if c = '\n' then acc :: splitNlAux rest "" else splitNlAux rest (acc.push c)

/-- The JavaScript `s.split("\n")`: chunks between newline occurrences.
An empty string yields the one-element list `[""]`, not the empty list. -/
def splitNl (s : String) : List String :=
  splitNlAux s.toList ""

/-- `list(prefix)`: validate that the prefix is a string, then
`axios.get(baseURL?prefix=...)` and split the body on newlines
(`res.data.split` — note `"".split` gives `[""]`, not `[]`). -/
def list (b : Backend) (pre : JSValue) : Except JSError (List String) × List Request :=
  match pre with
  | .str p =>
      (match b.listR p with
       | .error e => (.error e, [.reqList p])
       | .ok body => (.ok (splitNl body), [.reqList p]))
  | k => (.error (.invalidArg ("Prefix must be a String, nor " ++ typeofJS k)), [])

/-- True exactly on the three own property names of the `operators`
dispatch table literal. -/
def isOperator (name : String) : Bool :=
  name == "$set" || name == "$add" || name == "$sub"

/-- The property names every object literal inherits from
`Object.prototype`: looking any of them up on the `operators` table does
not give `undefined` either. -/
def objectProtoNames : List String :=
  ["constructor", "hasOwnProperty", "isPrototypeOf", "propertyIsEnumerable",
   "toLocaleString", "toString", "valueOf", "__defineGetter__",
   "__defineSetter__", "__lookupGetter__", "__lookupSetter__", "__proto__"]

/-- The classification test `operators[x.at(0)] !== undefined` of the two
`update` filters: it hits for the three own operator names and also for
every name inherited from `Object.prototype`, so patch keys such as
`toString` are treated as operator entries, not plain entries. -/
def operatorTableHit (name : String) : Bool :=
  isOperator name || objectProtoNames.contains name

/-- The destructuring `const [[x, y]] = Object.entries(val)` shared by all
three operator closures: a `TypeError` when `val` has no entries (the
inner pattern destructures `undefined`), otherwise the first entry —
later entries are ignored. -/
def firstEntry (val : JSValue) : Except JSError (String × JSValue) :=
  match jsEntries val with
  | .error e => .error e
  | .ok [] => .error (.typeError "undefined is not iterable")
  | .ok (e :: _) => .ok e

/-- The `number` arm of `oldValue[x] += y`: JavaScript `+` with a number
on the left concatenates when the right side is a string (or an object
coercing to one), and otherwise adds after `ToNumber` coercion. -/
def jsAddNumber (lhs : JSValue) (y : JSValue) : JSValue :=
  match y with
  | .str s => .str (jsToString lhs ++ s)
  | .arr _ => .str (jsToString lhs ++ jsToString y)
  | .obj _ => .str (jsToString lhs ++ jsToString y)
  | _ =>
      match lhs, jsToNum y with
      | .num a, .num c => .num (a + c)
      | _, _ => .nan

/-- The `number` arm of `oldValue[x] -= y`: subtraction after `ToNumber`
coercion of the operand, `NaN` when either side is not numeric. -/
def jsSubNumber (lhs : JSValue) (y : JSValue) : JSValue :=
  match lhs, jsToNum y with
  | .num a, .num c => .num (a - c)
  | _, _ => .nan

/-- Number of leading elements kept by `slice(0, Math.abs(y) * -1)` on a
string or array of length `len`.  When `Math.abs(y)` is `0` the end
argument is `-0`, which `slice` treats as `0`, keeping nothing; when it is
`NaN` the end argument is also treated as `0`; otherwise
`max(len - abs, 0)` elements survive. -/
def sliceKeep (len : Nat) (y : JSValue) : Nat :=
  match jsToNum y with
  | .num m => if m = 0 then 0 else len - m.natAbs
  | _ => 0

/-- The `$set` closure after destructuring: `oldValue[x] = y`. -/
def applySet (old : JSValue) (x : String) (y : JSValue) : Except JSError JSValue :=
  propSet old x y

/-- The `$add` closure after destructuring: dispatch on
`typeof oldValue[x]` — strings concatenate, numbers add, arrays push the
operand as one trailing element, any other type (`object` non-array,
`null`, `undefined`, booleans) is left alone. -/
def applyAdd (old : JSValue) (x : String) (y : JSValue) : Except JSError JSValue :=
  match propGet old x with
  | .error e => .error e
  | .ok (.str s) => propSet old x (.str (s ++ jsToString y))
  | .ok (.num n) => propSet old x (jsAddNumber (.num n) y)
  | .ok .nan => propSet old x (jsAddNumber .nan y)
  | .ok (.arr vs) => propSet old x (.arr (vs ++ [y]))
  | .ok _ => .ok old

/-- The `$sub` closure after destructuring: dispatch on
`typeof oldValue[x]` — strings and arrays are truncated by
`slice(0, Math.abs(y) * -1)`, numbers subtract, anything else is left
alone. -/
def applySub (old : JSValue) (x : String) (y : JSValue) : Except JSError JSValue :=
  match propGet old x with
  | .error e => .error e
  | .ok (.str s) => propSet old x (.str (s.take (sliceKeep s.length y)))
  | .ok (.num n) => propSet old x (jsSubNumber (.num n) y)
  | .ok .nan => propSet old x (jsSubNumber .nan y)
  | .ok (.arr vs) => propSet old x (.arr (vs.take (sliceKeep vs.length y)))
  | .ok _ => .ok old

/-- One invocation `operators[name](payload)` for a name that passed the
classification filter.  The three own closures destructure the payload
first (this is where an empty payload throws) and then mutate.  An
inherited `Object.prototype` name calls the inherited function instead:
`__proto__` is not callable and throws, the two accessor-definers throw
because the payload value is never a function in this JSON model, and
every other inherited method runs harmlessly with its result discarded,
silently dropping the entry. -/
def applyOperator (name : String) (payload : JSValue) (old : JSValue) :
    Except JSError JSValue :=
  if isOperator name then
    match firstEntry payload with
    | .error e => .error e
    | .ok (x, y) =>
        match name with
        | "$set" => applySet old x y
        | "$add" => applyAdd old x y
        | "$sub" => applySub old x y
        | _ => .ok old
  else if name = "__proto__" then
    .error (.typeError "operators.__proto__ is not a function")
  else if name = "__defineGetter__" || name = "__defineSetter__" then
    .error (.typeError "Getter must be a function")
  else
    .ok old

/-- The first `forEach` pass of `update`: run each operator entry in
order; a thrown `TypeError` aborts the pass (and, through the promise
chain, the whole call). -/
def applyOperatorEntries (entries : List (String × JSValue)) (old : JSValue) :
    Except JSError JSValue :=
  match entries with
  | [] => .ok old
  | (k, v) :: rest =>
      match applyOperator k v old with
      | .error e => .error e
      | .ok old1 => applyOperatorEntries rest old1

/-- The second `forEach` pass of `update` (and the only pass of `patch`):
plain entries overwrite their fields unconditionally, in entry order. -/
def applyPlainEntries (entries : List (String × JSValue)) (old : JSValue) :
    Except JSError JSValue :=
  match entries with
  | [] => .ok old
  | (k, v) :: rest =>
      match propSet old k v with
      | .error e => .error e
      | .ok old1 => applyPlainEntries rest old1

/-- The body of `update`'s `.then(oldValue => ...)` callback: take the
patch's entries, run every entry whose key is in the operator table, then
run every remaining entry as a plain overwrite. -/
def applyPatchValue (value : JSValue) (old : JSValue) : Except JSError JSValue :=
  match jsEntries value with
  | .error e => .error e
  | .ok entries =>
      match applyOperatorEntries (entries.filter fun e => operatorTableHit e.1) old with
      | .error e => .error e
      | .ok old1 => applyPlainEntries (entries.filter fun e => !operatorTableHit e.1) old1

/-- `update(key, value)`: validate the key; when `typeof value` is not
`object`, hand the value to `set` — the executor returns that promise
without calling `resolve`/`reject`, so the write is issued but the
returned promise never settles; otherwise `get` the key, apply the patch
(operator pass, then plain pass), and `set` the result back, resolving
with `set`'s resolution (the key). -/
def update (b : Backend) (key : JSValue) (value : JSValue) :
    Outcome JSValue × List Request :=
  match keyCheck key with
  | .error e => (.settled (.error e), [])
  | .ok k =>
      if typeofJS value ≠ "object" then
        (.pending, (set b key value).2)
      else
        match b.getR k with
        | .error e => (.settled (.error e), [.reqGet k])
        | .ok old =>
            match applyPatchValue value old with
            | .error e => (.settled (.error e), [.reqGet k])
            | .ok newV =>
                match b.setR k newV with
                | .error e => (.settled (.error e), [.reqGet k, .reqSet k newV])
                | .ok _ => (.settled (.ok (.str k)), [.reqGet k, .reqSet k newV])

/-- The body of `patch`'s `.then(oldValue => ...)` callback: every entry
of the patch is a plain overwrite. -/
def applyShallowValue (value : JSValue) (old : JSValue) : Except JSError JSValue :=
  match jsEntries value with
  | .error e => .error e
  | .ok es => applyPlainEntries es old

/-- `patch(key, value)`: like `update` (including the never-settling
scalar branch) but with no operator interpretation — every entry is a
plain overwrite. -/
def patch (b : Backend) (key : JSValue) (value : JSValue) :
    Outcome JSValue × List Request :=
  match keyCheck key with
  | .error e => (.settled (.error e), [])
  | .ok k =>
      if typeofJS value ≠ "object" then
        (.pending, (set b key value).2)
      else
        match b.getR k with
        | .error e => (.settled (.error e), [.reqGet k])
        | .ok old =>
            match applyShallowValue value old with
            | .error e => (.settled (.error e), [.reqGet k])
            | .ok newV =>
                match b.setR k newV with
                | .error e => (.settled (.error e), [.reqGet k, .reqSet k newV])
                | .ok _ => (.settled (.ok (.str k)), [.reqGet k, .reqSet k newV])

/-- The `values` argument of `setAll`: the code only distinguishes
`typeof values == "function"` from everything else, so a function is its
own variant and every other value (including an array) is a single
`JSValue`. -/
inductive SetAllValues where
  | fn (f : JSValue → Nat → List JSValue → JSValue) : SetAllValues
  | plain (v : JSValue) : SetAllValues

/-- The value chosen for one key by `setAll`'s loop:
`typeof values == "function" ? values(key, y, z) : values` — a function is
invoked with the key, its index and the whole key list; any other
`values`, an array included, is passed to `set` unchanged. -/
def setAllValueFor (values : SetAllValues) (key : JSValue) (i : Nat)
    (keys : List JSValue) : JSValue :=
  match values with
  | .fn f => f key i keys
  | .plain v => v

/-- `Promise.all` on the collected `set` results: all resolutions in
order, or the first rejection. -/
def collectAll : List (Except JSError JSValue) → Except JSError (List JSValue)
  | [] => .ok []
  | .ok v :: rest => (collectAll rest).map (v :: ·)
  | .error e :: _ => .error e

/-- The `doSetAll` helper: push one `set` per key (every request is
issued), then join with `Promise.all`. -/
def doSetAll (b : Backend) (keys : List JSValue) (values : SetAllValues) :
    Except JSError JSValue × List Request :=
  let results := (List.range keys.length).zip keys |>.map fun p =>
    set b p.2 (setAllValueFor values p.2 p.1 keys)
  (Except.map .arr (collectAll (results.map Prod.fst)), (results.map Prod.snd).flatten)

/-- `setAll(prefixOrList, values)`: an array argument is used as the key
list directly; anything else is resolved through `list` first (whose
prefix validation and failure reject the whole call). -/
def setAll (b : Backend) (prefixOrList : JSValue) (values : SetAllValues) :
    Except JSError JSValue × List Request :=
  match prefixOrList with
  | .arr ks => doSetAll b ks values
  | p =>
      match list b p with
      | (.ok keys, tr) =>
          let r := doSetAll b (keys.map .str) values
          (r.1, tr ++ r.2)
      | (.error e, tr) => (.error e, tr)

/-!  Concrete backends used to exercise the operations. -/

/-- A store whose `get` always answers the object
`{count: 5, tags: ["a"], name: "hello"}`, whose writes and deletes always
succeed, and whose listing body is empty. -/
def bDemo : Backend :=
  { getR := fun _ => .ok (.obj [("count", .num 5), ("tags", .arr [.str "a"]), ("name", .str "hello")])
  , setR := fun _ _ => .ok ()
  , delR := fun _ => .ok ()
  , listR := fun _ => .ok "" }

/-- A store whose `get` always answers a 404 response (axios rejects with
`err.response.status == 404`); writes and deletes succeed. -/
def b404 : Backend :=
  { getR := fun _ => .error (.http 404)
  , setR := fun _ _ => .ok ()
  , delR := fun _ => .ok ()
  , listR := fun _ => .ok "" }

/-!  Helper lemmas. -/

/-- Reading back the field just written by `objInsert` gives the written
value. -/
theorem objGet_objInsert_self (fs : List (String × JSValue)) (x : String)
    (y : JSValue) : objGet (objInsert fs x y) x = y := by
  induction fs with
  | nil => simp [objInsert, objGet]
  | cons hd tl ih =>
      obtain ⟨k, v⟩ := hd
      by_cases hk : k = x
      · simp [objInsert, objGet, hk]
      · simp [objInsert, objGet, hk, ih]

/-- An empty or non-string key fails validation with an
`InvalidArgument`-class error. -/
theorem keyCheck_invalid (key : JSValue)
    (h : key = .str "" ∨ ∀ s, key ≠ .str s) :
    ∃ msg, keyCheck key = .error (.invalidArg msg) := by
  cases key with
  | str s =>
      rcases h with h | h
      · cases h; exact ⟨_, rfl⟩
      · exact absurd rfl (h s)
  | bool b => cases b <;> exact ⟨_, rfl⟩
  | num n =>
      unfold keyCheck
      split
      · exact ⟨_, rfl⟩
      · exact ⟨_, rfl⟩
  | undefined => exact ⟨_, rfl⟩
  | null => exact ⟨_, rfl⟩
  | nan => exact ⟨_, rfl⟩
  | arr xs => exact ⟨_, rfl⟩
  | obj fs => exact ⟨_, rfl⟩

/-- A patch holding exactly one entry that passes the classification
filter reduces to that one table invocation (the plain pass is empty). -/
theorem applyPatchValue_single_op (nm : String) (hop : operatorTableHit nm = true)
    (pl old : JSValue) :
    applyPatchValue (.obj [(nm, pl)]) old = applyOperator nm pl old := by
  have hf1 : List.filter (fun e => operatorTableHit e.1) [(nm, pl)] = [(nm, pl)] := by
    simp [List.filter_cons, hop]
  have hf2 : List.filter (fun e => !operatorTableHit e.1) [(nm, pl)] = [] := by
    simp [List.filter_cons, hop]
  unfold applyPatchValue
  simp only [jsEntries, hf1, hf2]
  cases h : applyOperator nm pl old with
  | error e => simp [applyOperatorEntries, h]
  | ok o => simp [applyOperatorEntries, h, applyPlainEntries]

/-- Evaluation of `update` on the successful path. -/
theorem update_eval (b : Backend) (key value : JSValue) (k : String)
    (old newV : JSValue)
    (hk : keyCheck key = .ok k) (hobj : typeofJS value = "object")
    (hget : b.getR k = .ok old) (happ : applyPatchValue value old = .ok newV)
    (hset : b.setR k newV = .ok ()) :
    update b key value = (.settled (.ok (.str k)), [.reqGet k, .reqSet k newV]) := by
  unfold update
  rw [hk]
  simp [hobj, hget, happ, hset]

/-- Evaluation of `update` when applying the patch throws: the rejection
surfaces and no write is issued. -/
theorem update_eval_patchThrow (b : Backend) (key value : JSValue) (k : String)
    (old : JSValue) (e : JSError)
    (hk : keyCheck key = .ok k) (hobj : typeofJS value = "object")
    (hget : b.getR k = .ok old) (happ : applyPatchValue value old = .error e) :
    update b key value = (.settled (.error e), [.reqGet k]) := by
  unfold update
  rw [hk]
  simp [hobj, hget, happ]

/-- If some entry of the operator pass names one of the three own
operators with an empty payload, the pass throws (either at that entry or
at an earlier one). -/
theorem applyOperatorEntries_err_of_empty_payload
    (l : List (String × JSValue)) (old : JSValue) (nm : String)
    (hop : isOperator nm = true)
    (hmem : (nm, JSValue.obj []) ∈ l) :
    ∃ e, applyOperatorEntries l old = .error e := by
  induction l generalizing old with
  | nil => cases hmem
  | cons hd tl ih =>
      obtain ⟨k, v⟩ := hd
      rcases List.mem_cons.mp hmem with heq | htl
      · injection heq with hk hv
        subst hk; subst hv
        refine ⟨.typeError "undefined is not iterable", ?_⟩
        unfold applyOperatorEntries
        simp [applyOperator, hop, firstEntry, jsEntries]
      · cases hop : applyOperator k v old with
        | error e =>
            refine ⟨e, ?_⟩
            unfold applyOperatorEntries
            simp [hop]
        | ok old1 =>
            obtain ⟨e, he⟩ := ih old1 htl
            refine ⟨e, ?_⟩
            unfold applyOperatorEntries
            simp [hop, he]

/-- Existing-field shapes on which `$add` and `$sub` are silent no-ops:
`undefined` (absent field), `null`, booleans and non-array objects — the
`switch` has no arm writing for them. -/
def noOpFieldShape : JSValue → Prop
  | .undefined => True
  | .null => True
  | .bool _ => True
  | .obj _ => True
  | _ => False

/-- C1: for a valid key and a patch `{$add: {x: y}}` on a fetched object,
`update` dispatches on the existing field: a string field gets `y`
concatenated (after string coercion), a number field gets a number
operand arithmetically added, an array field gets `y` appended as exactly
one trailing element, and any other shape (absent included) is left
untouched while the write still round-trips the unchanged object. -/
theorem C1_update_add_dispatch :
    ∀ (b : Backend) (key : JSValue) (k : String) (fs : List (String × JSValue))
      (x : String) (y : JSValue),
    keyCheck key = .ok k →
    b.getR k = .ok (.obj fs) →
    (∀ v, b.setR k v = .ok ()) →
    ((∀ s, objGet fs x = .str s →
        update b key (.obj [("$add", .obj [(x, y)])]) =
          (.settled (.ok (.str k)),
           [.reqGet k, .reqSet k (.obj (objInsert fs x (.str (s ++ jsToString y))))])) ∧
     (∀ n m, objGet fs x = .num n → y = .num m →
        update b key (.obj [("$add", .obj [(x, y)])]) =
          (.settled (.ok (.str k)),
           [.reqGet k, .reqSet k (.obj (objInsert fs x (.num (n + m))))])) ∧
     (∀ vs, objGet fs x = .arr vs →
        update b key (.obj [("$add", .obj [(x, y)])]) =
          (.settled (.ok (.str k)),
           [.reqGet k, .reqSet k (.obj (objInsert fs x (.arr (vs ++ [y]))))])) ∧
     (noOpFieldShape (objGet fs x) →
        update b key (.obj [("$add", .obj [(x, y)])]) =
          (.settled (.ok (.str k)), [.reqGet k, .reqSet k (.obj fs)]))) := by
  intro b key k fs x y hk hget hset
  have hprop : propGet (.obj fs) x = .ok (objGet fs x) := rfl
  refine ⟨?_, ?_, ?_, ?_⟩
  · intro s hfield
    have happ : applyPatchValue (.obj [("$add", .obj [(x, y)])]) (.obj fs) =
        .ok (.obj (objInsert fs x (.str (s ++ jsToString y)))) := by
      rw [applyPatchValue_single_op "$add" rfl]
      show applyAdd (.obj fs) x y = _
      unfold applyAdd
      rw [hprop, hfield]
      rfl
    exact update_eval b key _ k _ _ hk rfl hget happ (hset _)
  · intro n m hfield hy
    subst hy
    have happ : applyPatchValue (.obj [("$add", .obj [(x, .num m)])]) (.obj fs) =
        .ok (.obj (objInsert fs x (.num (n + m)))) := by
      rw [applyPatchValue_single_op "$add" rfl]
      show applyAdd (.obj fs) x (.num m) = _
      unfold applyAdd
      rw [hprop, hfield]
      rfl
    exact update_eval b key _ k _ _ hk rfl hget happ (hset _)
  · intro vs hfield
    have happ : applyPatchValue (.obj [("$add", .obj [(x, y)])]) (.obj fs) =
        .ok (.obj (objInsert fs x (.arr (vs ++ [y])))) := by
      rw [applyPatchValue_single_op "$add" rfl]
      show applyAdd (.obj fs) x y = _
      unfold applyAdd
      rw [hprop, hfield]
      rfl
    exact update_eval b key _ k _ _ hk rfl hget happ (hset _)
  · intro hshape
    have happ : applyPatchValue (.obj [("$add", .obj [(x, y)])]) (.obj fs) =
        .ok (.obj fs) := by
      rw [applyPatchValue_single_op "$add" rfl]
      show applyAdd (.obj fs) x y = _
      unfold applyAdd
      rw [hprop]
      cases hv : objGet fs x <;> rw [hv] at hshape <;>
        first
          | rfl
          | exact hshape.elim
    exact update_eval b key _ k _ _ hk rfl hget happ (hset _)

/-- C1 witness: on the stored object `{count: 5, tags: ["a"], name: "hello"}`,
`update(k, {$add: {tags: "b"}})` writes back `tags = ["a", "b"]`. -/
theorem C1_witness :
    keyCheck (.str "k") = .ok "k" ∧
    update bDemo (.str "k") (.obj [("$add", .obj [("tags", .str "b")])]) =
      (.settled (.ok (.str "k")),
       [.reqGet "k",
        .reqSet "k" (.obj [("count", .num 5), ("tags", .arr [.str "a", .str "b"]),
                           ("name", .str "hello")])]) :=
  ⟨rfl,
   (C1_update_add_dispatch bDemo (.str "k") "k" _ "tags" (.str "b")
      rfl rfl (fun _ => rfl)).2.2.1 [.str "a"] rfl⟩

/-- C1 counterexample: with existing `count = 5` (a number field),
`update(k, {$add: {count: "3"}})` writes the string `"53"` — JavaScript
`+` concatenates when the operand is a string — not the arithmetic sum
`8` the claim calls for on a number field. -/
theorem C1_counterexample :
    update bDemo (.str "k") (.obj [("$add", .obj [("count", .str "3")])]) =
      (.settled (.ok (.str "k")),
       [.reqGet "k",
        .reqSet "k" (.obj [("count", .str "53"), ("tags", .arr [.str "a"]),
                           ("name", .str "hello")])]) ∧
    (JSValue.str "53") ≠ (JSValue.num 8) :=
  ⟨rfl, by simp⟩

/-- C2: for a valid key and a patch `{$sub: {x: .num m}}` on a fetched
object, `update` dispatches on the existing field: a number field gets
`m` subtracted; a string or array field of length `len` keeps its prefix
of `len - abs(m)` elements when `m` is nonzero (empty when
`abs(m) >= len`) but is emptied outright when `m = 0`, because the code
computes `slice(0, Math.abs(0) * -1) = slice(0, -0) = slice(0, 0)`; any
other field shape is left untouched. -/
theorem C2_update_sub_dispatch :
    ∀ (b : Backend) (key : JSValue) (k : String) (fs : List (String × JSValue))
      (x : String) (m : Int),
    keyCheck key = .ok k →
    b.getR k = .ok (.obj fs) →
    (∀ v, b.setR k v = .ok ()) →
    ((∀ n, objGet fs x = .num n →
        update b key (.obj [("$sub", .obj [(x, .num m)])]) =
          (.settled (.ok (.str k)),
           [.reqGet k, .reqSet k (.obj (objInsert fs x (.num (n - m))))])) ∧
     (∀ s, objGet fs x = .str s → m ≠ 0 →
        update b key (.obj [("$sub", .obj [(x, .num m)])]) =
          (.settled (.ok (.str k)),
           [.reqGet k, .reqSet k (.obj (objInsert fs x (.str (s.take (s.length - m.natAbs)))))])) ∧
     (∀ s, objGet fs x = .str s → m = 0 →
        update b key (.obj [("$sub", .obj [(x, .num m)])]) =
          (.settled (.ok (.str k)),
           [.reqGet k, .reqSet k (.obj (objInsert fs x (.str "")))])) ∧
     (∀ vs, objGet fs x = .arr vs → m ≠ 0 →
        update b key (.obj [("$sub", .obj [(x, .num m)])]) =
          (.settled (.ok (.str k)),
           [.reqGet k, .reqSet k (.obj (objInsert fs x (.arr (vs.take (vs.length - m.natAbs)))))])) ∧
     (∀ vs, objGet fs x = .arr vs → m = 0 →
        update b key (.obj [("$sub", .obj [(x, .num m)])]) =
          (.settled (.ok (.str k)),
           [.reqGet k, .reqSet k (.obj (objInsert fs x (.arr [])))])) ∧
     (noOpFieldShape (objGet fs x) →
        update b key (.obj [("$sub", .obj [(x, .num m)])]) =
          (.settled (.ok (.str k)), [.reqGet k, .reqSet k (.obj fs)]))) := by
  intro b key k fs x m hk hget hset
  have hprop : propGet (.obj fs) x = .ok (objGet fs x) := rfl
  have hkeep : ∀ len : Nat, m ≠ 0 → sliceKeep len (.num m) = len - m.natAbs := by
    intro len hm
    simp [sliceKeep, jsToNum, hm]
  refine ⟨?_, ?_, ?_, ?_, ?_, ?_⟩
  · intro n hfield
    have happ : applyPatchValue (.obj [("$sub", .obj [(x, .num m)])]) (.obj fs) =
        .ok (.obj (objInsert fs x (.num (n - m)))) := by
      rw [applyPatchValue_single_op "$sub" rfl]
      show applySub (.obj fs) x (.num m) = _
      unfold applySub
      rw [hprop, hfield]
      rfl
    exact update_eval b key _ k _ _ hk rfl hget happ (hset _)
  · intro s hfield hm
    have hred : applySub (JSValue.obj fs) x (JSValue.num m) =
        propSet (JSValue.obj fs) x (JSValue.str (s.take (sliceKeep s.length (JSValue.num m)))) := by
      unfold applySub
      rw [hprop, hfield]
    have happ : applyPatchValue (.obj [("$sub", .obj [(x, .num m)])]) (.obj fs) =
        .ok (.obj (objInsert fs x (.str (s.take (s.length - m.natAbs))))) := by
      rw [applyPatchValue_single_op "$sub" rfl]
      show applySub (.obj fs) x (.num m) = _
      rw [hred, hkeep s.length hm]
      rfl
    exact update_eval b key _ k _ _ hk rfl hget happ (hset _)
  · intro s hfield hm
    subst hm
    have happ : applyPatchValue (.obj [("$sub", .obj [(x, .num 0)])]) (.obj fs) =
        .ok (.obj (objInsert fs x (.str ""))) := by
      rw [applyPatchValue_single_op "$sub" rfl]
      show applySub (.obj fs) x (.num 0) = _
      unfold applySub
      rw [hprop, hfield]
      rfl
    exact update_eval b key _ k _ _ hk rfl hget happ (hset _)
  · intro vs hfield hm
    have hred : applySub (JSValue.obj fs) x (JSValue.num m) =
        propSet (JSValue.obj fs) x (JSValue.arr (vs.take (sliceKeep vs.length (JSValue.num m)))) := by
      unfold applySub
      rw [hprop, hfield]
    have happ : applyPatchValue (.obj [("$sub", .obj [(x, .num m)])]) (.obj fs) =
        .ok (.obj (objInsert fs x (.arr (vs.take (vs.length - m.natAbs))))) := by
      rw [applyPatchValue_single_op "$sub" rfl]
      show applySub (.obj fs) x (.num m) = _
      rw [hred, hkeep vs.length hm]
      rfl
    exact update_eval b key _ k _ _ hk rfl hget happ (hset _)
  · intro vs hfield hm
    subst hm
    have happ : applyPatchValue (.obj [("$sub", .obj [(x, .num 0)])]) (.obj fs) =
        .ok (.obj (objInsert fs x (.arr []))) := by
      rw [applyPatchValue_single_op "$sub" rfl]
      show applySub (.obj fs) x (.num 0) = _
      unfold applySub
      rw [hprop, hfield]
      rfl
    exact update_eval b key _ k _ _ hk rfl hget happ (hset _)
  · intro hshape
    have happ : applyPatchValue (.obj [("$sub", .obj [(x, .num m)])]) (.obj fs) =
        .ok (.obj fs) := by
      rw [applyPatchValue_single_op "$sub" rfl]
      show applySub (.obj fs) x (.num m) = _
      unfold applySub
      rw [hprop]
      cases hv : objGet fs x <;> rw [hv] at hshape <;>
        first
          | rfl
          | exact hshape.elim
    exact update_eval b key _ k _ _ hk rfl hget happ (hset _)

/-- C2 witness: on the stored object with `count = 5` and `name = "hello"`,
`update(k, {$sub: {count: 3}})` writes back `count = 2` (and
`update(k, {$sub: {name: 2}})` would keep the prefix `"hel"`). -/
theorem C2_witness :
    keyCheck (.str "k") = .ok "k" ∧ (2 : Int) ≠ 0 ∧
    update bDemo (.str "k") (.obj [("$sub", .obj [("name", .num 2)])]) =
      (.settled (.ok (.str "k")),
       [.reqGet "k",
        .reqSet "k" (.obj [("count", .num 5), ("tags", .arr [.str "a"]),
                           ("name", .str "hel")])]) :=
  ⟨rfl, by decide,
   (C2_update_sub_dispatch bDemo (.str "k") "k" _ "name" 2
      rfl rfl (fun _ => rfl)).2.1 "hello" rfl (by decide)⟩

/-- C2 counterexample: with existing `name = "hello"`,
`update(k, {$sub: {name: 0}})` writes back `name = ""` — the code
computes `"hello".slice(0, -0)`, which is `slice(0, 0)` — not the
unchanged `"hello"` the claim promises for an operand of `0`. -/
theorem C2_counterexample :
    update bDemo (.str "k") (.obj [("$sub", .obj [("name", .num 0)])]) =
      (.settled (.ok (.str "k")),
       [.reqGet "k",
        .reqSet "k" (.obj [("count", .num 5), ("tags", .arr [.str "a"]),
                           ("name", .str "")])]) ∧
    (JSValue.str "") ≠ (JSValue.str "hello") :=
  ⟨rfl, by simp⟩

/-- C3 (amended): the entries `update` sends through the operator pass
are exactly those whose key hits the `operators` table — the three own
names and the names inherited from `Object.prototype` (`toString`,
`valueOf`, ...).  First, the result depends only on the subsequence of
table-hit entries and the subsequence of plain entries, not on how the
two are interleaved in the patch.  Second, a genuinely plain entry (its
key hits nothing in the table) unconditionally overwrites its field and
clobbers a `$set` on the same field whichever of the two is written
first.  Third, an entry with an inherited name such as `toString` is
consumed by the operator pass and dropped instead of being applied as a
plain overwrite. -/
theorem C3_operators_before_plain :
    (∀ (p1 p2 : List (String × JSValue)) (old : JSValue),
       p1.filter (fun e => operatorTableHit e.1) = p2.filter (fun e => operatorTableHit e.1) →
       p1.filter (fun e => !operatorTableHit e.1) = p2.filter (fun e => !operatorTableHit e.1) →
       applyPatchValue (.obj p1) old = applyPatchValue (.obj p2) old) ∧
    (∀ (fs : List (String × JSValue)) (x : String) (a c : JSValue),
       operatorTableHit x = false →
       applyPatchValue (.obj [("$set", .obj [(x, a)]), (x, c)]) (.obj fs) =
         .ok (.obj (objInsert (objInsert fs x a) x c)) ∧
       applyPatchValue (.obj [(x, c), ("$set", .obj [(x, a)])]) (.obj fs) =
         .ok (.obj (objInsert (objInsert fs x a) x c)) ∧
       objGet (objInsert (objInsert fs x a) x c) x = c) ∧
    (∀ (v old : JSValue),
       applyPatchValue (.obj [("toString", v)]) old = .ok old) := by
  have hsetName : operatorTableHit "$set" = true := rfl
  refine ⟨?_, ?_, ?_⟩
  · intro p1 p2 old h1 h2
    unfold applyPatchValue
    simp only [jsEntries]
    rw [h1, h2]
  · intro fs x a c hx
    have hops1 : List.filter (fun e => operatorTableHit e.1)
        [("$set", JSValue.obj [(x, a)]), (x, c)] = [("$set", JSValue.obj [(x, a)])] := by
      simp [List.filter_cons, hsetName, hx]
    have hops2 : List.filter (fun e => operatorTableHit e.1)
        [(x, c), ("$set", JSValue.obj [(x, a)])] = [("$set", JSValue.obj [(x, a)])] := by
      simp [List.filter_cons, hsetName, hx]
    have hpl1 : List.filter (fun e => !operatorTableHit e.1)
        [("$set", JSValue.obj [(x, a)]), (x, c)] = [(x, c)] := by
      simp [List.filter_cons, hsetName, hx]
    have hpl2 : List.filter (fun e => !operatorTableHit e.1)
        [(x, c), ("$set", JSValue.obj [(x, a)])] = [(x, c)] := by
      simp [List.filter_cons, hsetName, hx]
    refine ⟨?_, ?_, objGet_objInsert_self _ x c⟩
    · unfold applyPatchValue
      simp only [jsEntries]
      rw [hops1, hpl1]
      rfl
    · unfold applyPatchValue
      simp only [jsEntries]
      rw [hops2, hpl2]
      rfl
  · intro v old
    rw [applyPatchValue_single_op "toString" rfl]
    rfl

/-- C3 witness: on an empty stored object, the patches
`{$set: {a: 1}, a: 2}` and `{a: 2, $set: {a: 1}}` produce the same
result and the plain entry wins (field `a` ends up `2`); and the
inherited-name entry of `{toString: 5}` is dropped, leaving the fetched
object unchanged. -/
theorem C3_witness :
    applyPatchValue (.obj [("$set", .obj [("a", .num 1)]), ("a", .num 2)]) (.obj []) =
      applyPatchValue (.obj [("a", .num 2), ("$set", .obj [("a", .num 1)])]) (.obj []) ∧
    applyPatchValue (.obj [("$set", .obj [("a", .num 1)]), ("a", .num 2)]) (.obj []) =
      .ok (.obj [("a", .num 2)]) ∧
    applyPatchValue (.obj [("toString", .num 5)]) (.obj [("a", .num 1)]) =
      .ok (.obj [("a", .num 1)]) :=
  ⟨C3_operators_before_plain.1 _ _ (.obj []) rfl rfl,
   (C3_operators_before_plain.2.1 [] "a" (.num 1) (.num 2) rfl).1,
   C3_operators_before_plain.2.2 (.num 5) (.obj [("a", .num 1)])⟩

/-- C3 counterexample: the patch `{$set: {a: 1}, toString: 5}` does not
overwrite a `toString` field.  `operators["toString"]` is the method
inherited from `Object.prototype`, so the test
`operators[x.at(0)] !== undefined` classifies the entry as an operator:
the inherited function is called and its result discarded, the plain
pass never sees the entry, and the final object has no `toString` field
— against the claim that every non-`$set`/`$add`/`$sub` entry
unconditionally overwrites its field. -/
theorem C3_counterexample :
    applyPatchValue (.obj [("$set", .obj [("a", .num 1)]), ("toString", .num 5)]) (.obj []) =
      .ok (.obj [("a", .num 1)]) ∧
    objGet [("a", .num 1)] "toString" ≠ JSValue.num 5 := by
  refine ⟨rfl, ?_⟩
  intro h
  exact JSValue.noConfusion h

/-- C4: the scalar bypass of `update` and `patch` issues the `set`
request without any read, but the promise these calls return never
settles: the executor returns `this.set(key, value)` without calling
`resolve` or `reject`, so the claimed resolution with the key never
happens. -/
theorem C4_scalar_bypass_pending :
    update bDemo (.str "k") (.num 5) = (.pending, [.reqSet "k" (.num 5)]) ∧
    patch bDemo (.str "k") (.num 5) = (.pending, [.reqSet "k" (.num 5)]) ∧
    (update bDemo (.str "k") (.num 5)).1 ≠ .settled (.ok (.str "k")) := by
  refine ⟨rfl, rfl, ?_⟩
  intro h
  exact Outcome.noConfusion h

/-- Trace soundness for the patch engine: every write in the trace is to
a key whose `get` both heads the trace and succeeded on the backend. -/
def trOnlyWritesAfterGet (b : Backend) (tr : List Request) : Bool :=
  tr.all fun r =>
    match r with
    | .reqSet k _ =>
        (match tr.head? with
         | some (.reqGet k2) => k2 == k
         | _ => false)
        && (match b.getR k with
            | .ok _ => true
            | .error _ => false)
    | _ => true

/-- C5: with an object-like patch, `update` and `patch` only ever write
after a successful `get` of the same key heading the trace (in
particular a failed `get` sends no write), and with a non-object value
the only requests issued are exactly the ones of the delegated `set` —
the scalar bypass, which performs no read. -/
theorem C5_no_blind_patch :
    ∀ (b : Backend) (key value : JSValue),
    (typeofJS value = "object" →
       trOnlyWritesAfterGet b (update b key value).2 = true ∧
       trOnlyWritesAfterGet b (patch b key value).2 = true) ∧
    (typeofJS value ≠ "object" →
       (update b key value).2 = (set b key value).2 ∧
       (patch b key value).2 = (set b key value).2) := by
  intro b key value
  constructor
  · intro hobj
    constructor
    · unfold update
      cases hk : keyCheck key with
      | error e => simp [trOnlyWritesAfterGet]
      | ok k =>
          cases hget : b.getR k with
          | error e => simp [hobj, hget, trOnlyWritesAfterGet]
          | ok old =>
              cases happ : applyPatchValue value old with
              | error e => simp [hobj, hget, happ, trOnlyWritesAfterGet]
              | ok newV =>
                  cases hset : b.setR k newV with
                  | error e => simp [hobj, hget, happ, hset, trOnlyWritesAfterGet]
                  | ok u => simp [hobj, hget, happ, hset, trOnlyWritesAfterGet]
    · unfold patch
      cases hk : keyCheck key with
      | error e => simp [trOnlyWritesAfterGet]
      | ok k =>
          cases hget : b.getR k with
          | error e => simp [hobj, hget, trOnlyWritesAfterGet]
          | ok old =>
              cases happ : applyShallowValue value old with
              | error e => simp [hobj, hget, happ, trOnlyWritesAfterGet]
              | ok newV =>
                  cases hset : b.setR k newV with
                  | error e => simp [hobj, hget, happ, hset, trOnlyWritesAfterGet]
                  | ok u => simp [hobj, hget, happ, hset, trOnlyWritesAfterGet]
  · intro hne
    cases hk : keyCheck key with
    | error e => simp [update, patch, set, hk]
    | ok k => simp [update, patch, set, hk, hne]

/-- C5 witness: with the demo backend and patch `{a: 1}` on key `k`, the
trace of `update` (a `get` followed by a `set` of the same key) satisfies
the write-only-after-successful-get property. -/
theorem C5_witness :
    typeofJS (.obj [("a", JSValue.num 1)]) = "object" ∧
    trOnlyWritesAfterGet bDemo (update bDemo (.str "k") (.obj [("a", .num 1)])).2 = true :=
  ⟨rfl, ((C5_no_blind_patch bDemo (.str "k") (.obj [("a", .num 1)])).1 rfl).1⟩

/-- C6 counterexample: when the store answers a key with a 404 response,
`get` rejects with that error — it does not resolve with the absence
signal `undefined` as the claim states. -/
theorem C6_counterexample :
    (get b404 (.str "k")).1 = .error (.http 404) ∧
    (get b404 (.str "k")).1 ≠ .ok JSValue.undefined := by
  refine ⟨rfl, ?_⟩
  intro h
  exact Except.noConfusion h

/-- C6 (amended): for a valid key, `get` resolves with the decoded stored
value when the backend read succeeds, and on a 404-class response `get`
fails with that error while `has` — not `get` — converts the 404
rejection into `false`. -/
theorem C6_get_propagates_404 :
    ∀ (b : Backend) (key : JSValue) (k : String),
    keyCheck key = .ok k →
    ((∀ v, b.getR k = .ok v → get b key = (.ok v, [.reqGet k])) ∧
     (b.getR k = .error (.http 404) →
        get b key = (.error (.http 404), [.reqGet k]) ∧
        has b key = (.ok false, [.reqGet k]))) := by
  intro b key k hk
  constructor
  · intro v hv
    simp only [get, hk, hv]
  · intro h404
    have hg : get b key = (.error (.http 404), [.reqGet k]) := by
      simp only [get, hk, h404]
    exact ⟨hg, by simp only [has, hg]⟩

/-- C6 witness: on the 404 backend, `get` of the key `missing` fails with
the 404 error and `has` of the same key resolves `false`. -/
theorem C6_witness :
    keyCheck (.str "missing") = .ok "missing" ∧
    get b404 (.str "missing") = (.error (.http 404), [.reqGet "missing"]) ∧
    has b404 (.str "missing") = (.ok false, [.reqGet "missing"]) :=
  ⟨rfl,
   ((C6_get_propagates_404 b404 (.str "missing") "missing" rfl).2 rfl).1,
   ((C6_get_propagates_404 b404 (.str "missing") "missing" rfl).2 rfl).2⟩

/-- C7 (amended): `list` returns the listing body split on newlines; when
the body is empty this split is the one-element sequence containing the
empty string, not the empty sequence. -/
theorem C7_list_newline_split :
    ∀ (b : Backend) (p body : String),
    b.listR p = .ok body →
    (list b (.str p) = (.ok (splitNl body), [.reqList p]) ∧
     (body = "" → list b (.str p) = (.ok [""], [.reqList p]))) := by
  intro b p body h
  have h1 : list b (.str p) = (.ok (splitNl body), [.reqList p]) := by
    simp only [list, h]
  exact ⟨h1, fun hb => by subst hb; exact h1⟩

/-- C7 witness: on the demo backend, whose listing body is empty, `list`
answers the newline split of the empty body. -/
theorem C7_witness :
    bDemo.listR "user" = .ok "" ∧
    list bDemo (.str "user") = (.ok (splitNl ""), [.reqList "user"]) :=
  ⟨rfl, (C7_list_newline_split bDemo "user" "" rfl).1⟩

/-- C7 counterexample: with an empty listing body (no keys match), `list`
resolves with `[""]` — a one-element sequence holding the empty string —
not with the empty sequence the claim states. -/
theorem C7_counterexample :
    list bDemo (.str "user") = (.ok [""], [.reqList "user"]) ∧
    (list bDemo (.str "user")).1 ≠ .ok ([] : List String) := by
  refine ⟨rfl, ?_⟩
  intro h
  exact List.noConfusion (Except.ok.inj h)

/-- C8: `setAll` with an array of per-key values does not distribute them
by position: `typeof values` is `object`, not `function`, so the entire
array is broadcast as the value of every key, while a generator function
is applied per key as `(key, index, keys)`. -/
theorem C8_setAll_array_broadcast :
    setAll bDemo (.arr [.str "k1", .str "k2"]) (.plain (.arr [.num 10, .num 20])) =
      (.ok (.arr [.str "k1", .str "k2"]),
       [.reqSet "k1" (.arr [.num 10, .num 20]), .reqSet "k2" (.arr [.num 10, .num 20])]) ∧
    setAll bDemo (.arr [.str "k1", .str "k2"]) (.fn fun _ i _ => .num i) =
      (.ok (.arr [.str "k1", .str "k2"]),
       [.reqSet "k1" (.num 0), .reqSet "k2" (.num 1)]) ∧
    (JSValue.arr [.num 10, .num 20]) ≠ .num 10 := by
  refine ⟨rfl, rfl, ?_⟩
  intro h
  exact JSValue.noConfusion h

/-- C9: calling `get`, `set`, `delete`, `update` or `patch` with an empty
string or a non-string key fails with an `InvalidArgument`-class error
and issues no request at all. -/
theorem C9_invalid_key_no_request :
    ∀ (b : Backend) (key : JSValue),
    (key = .str "" ∨ ∀ s, key ≠ .str s) →
    ((∃ e, e.isInvalidArg = true ∧ get b key = (.error e, [])) ∧
     (∀ v, ∃ e, e.isInvalidArg = true ∧ set b key v = (.error e, [])) ∧
     (∃ e, e.isInvalidArg = true ∧ delete b key = (.error e, [])) ∧
     (∀ v, ∃ e, e.isInvalidArg = true ∧ update b key v = (.settled (.error e), [])) ∧
     (∀ v, ∃ e, e.isInvalidArg = true ∧ patch b key v = (.settled (.error e), []))) := by
  intro b key h
  obtain ⟨msg, hmsg⟩ := keyCheck_invalid key h
  refine ⟨⟨.invalidArg msg, rfl, ?_⟩,
          fun v => ⟨.invalidArg msg, rfl, ?_⟩,
          ⟨.invalidArg msg, rfl, ?_⟩,
          fun v => ⟨.invalidArg msg, rfl, ?_⟩,
          fun v => ⟨.invalidArg msg, rfl, ?_⟩⟩
  · unfold get
    rw [hmsg]
  · unfold set
    rw [hmsg]
  · unfold delete
    rw [hmsg]
  · unfold update
    rw [hmsg]
  · unfold patch
    rw [hmsg]

/-- C9 witness: the numeric key `3` is not a string; `get` on it fails
with an `InvalidArgument`-class error and an empty request trace. -/
theorem C9_witness :
    ((JSValue.num 3) = .str "" ∨ ∀ s, (JSValue.num 3) ≠ .str s) ∧
    (∃ e, e.isInvalidArg = true ∧ get bDemo (.num 3) = (.error e, [])) :=
  ⟨Or.inr fun _ h => JSValue.noConfusion h,
   (C9_invalid_key_no_request bDemo (.num 3)
      (Or.inr fun _ h => JSValue.noConfusion h)).1⟩

/-- C10: an operator entry with an empty payload (for example
`{$set: {}}`) makes the whole `update` reject after the `get`: the
destructuring of `Object.entries` throws, so no `set` request is issued
and the stored value is untouched. -/
theorem C10_empty_operator_payload :
    ∀ (b : Backend) (key : JSValue) (k : String) (old : JSValue)
      (l : List (String × JSValue)) (nm : String),
    keyCheck key = .ok k →
    b.getR k = .ok old →
    isOperator nm = true →
    (nm, JSValue.obj []) ∈ l →
    ∃ e, update b key (.obj l) = (.settled (.error e), [.reqGet k]) := by
  intro b key k old l nm hk hget hop hmem
  have htab : operatorTableHit nm = true := by simp [operatorTableHit, hop]
  have hmemf : (nm, JSValue.obj []) ∈ l.filter (fun e => operatorTableHit e.1) :=
    List.mem_filter.mpr ⟨hmem, htab⟩
  obtain ⟨e, he⟩ :=
    applyOperatorEntries_err_of_empty_payload
      (l.filter (fun e => operatorTableHit e.1)) old nm hop hmemf
  have happ : applyPatchValue (.obj l) old = .error e := by
    unfold applyPatchValue
    simp only [jsEntries]
    rw [he]
  exact ⟨e, update_eval_patchThrow b key _ k old e hk rfl hget happ⟩

/-- C10 witness: on the demo backend, `update(k, {$set: {}})` rejects
after the `get` and issues no write. -/
theorem C10_witness :
    keyCheck (.str "k") = .ok "k" ∧
    (∃ e, update bDemo (.str "k") (.obj [("$set", .obj [])]) =
       (.settled (.error e), [.reqGet "k"])) :=
  ⟨rfl,
   C10_empty_operator_payload bDemo (.str "k") "k" _ [("$set", .obj [])] "$set"
     rfl rfl rfl (List.mem_singleton.mpr rfl)⟩

end ReplDB
